import Mathlib

/-!
Verification of the sri-import-map repository: a shallow embedding of the
Integrity Map data model, the specifier-resolution and integrity-verification
functions of src/import-map.ts, the client verifier of module-integrity.js and
module-integrity-client.js, the hash generators of module-integrity-typescript.ts
and the client-side TypeScript generator, and the two batch build validators of
module-integrity-validator.js.

The cryptographic hash is abstracted as an explicit function parameter
(content to base64 digest); network fetch and the filesystem are abstracted as
functions from url or path to an optional content string (none models a failed
fetch or a missing file).
-/

namespace SriImportMap

/-- Association list lookup, modelling JavaScript object property access.
Object keys are unique, so the first match is the match. -/
def lookupStr (m : List (String × String)) (k : String) : Option String :=
  (m.find? (fun p => p.1 == k)).map (·.2)

/-- Association list insert, modelling a JavaScript object assignment obj[k] = v.
An existing key is overwritten in place, a new key is appended at the end,
mirroring JS object key enumeration order. -/
def insertStr : List (String × String) → String → String → List (String × String)
  | [], k, v => [(k, v)]
  | (k1, v1) :: rest, k, v =>
    if k1 == k then (k, v) :: rest else (k1, v1) :: insertStr rest k v

/-- JavaScript truthiness of an optional string value: undefined and the empty
string are both falsy. -/
def strTruthy : Option String → Bool
  | some s => s != ""
  | none => false

/-- Lookup collapsing a JS falsy miss to the empty string, modelling a value of
the form (obj and obj[k]) that is subsequently used as a string. -/
def lookupTruthy (m : List (String × String)) (k : String) : String :=
  match lookupStr m k with
  | some s => s
  | none => ""

/-- Decides whether pat is a leading segment of s (on character lists). -/
def isPre : List Char → List Char → Bool
  | [], _ => true
  | _ :: _, [] => false
  | a :: as, b :: bs => a == b && isPre as bs

/-- Models String.prototype.startsWith. -/
def strStarts (s pat : String) : Bool := isPre pat.data s.data

/-- Models str.split(sep)[0] for a dash separator: the segment of the digest
string before the first dash, i.e. the algorithm tag. -/
def tagOf (s : String) : String := String.mk (s.data.takeWhile (fun c => c != '-'))

/-- Collapses runs of consecutive slashes to a single slash. Together with
pathJoin this models Node path.join on segments free of dot components. -/
def collapseSlashes : List Char → List Char
  | [] => []
  | [a] => [a]
  | a :: b :: rest =>
    if a == '/' && b == '/' then collapseSlashes (b :: rest)
    else a :: collapseSlashes (b :: rest)

/-- Models Node path.join(a, b) for arguments without dot segments. -/
def pathJoin (a b : String) : String :=
  String.mk (collapseSlashes (a.data ++ '/' :: b.data))

/-- Models str.replace of every backslash by a forward slash. -/
def slashForward (s : String) : String :=
  String.mk (s.data.map (fun c => if c == '\\' then '/' else c))

/-- Models String.prototype.substring(1). -/
def dropFirst (s : String) : String := String.mk s.data.tail

/-- Decides whether pat occurs anywhere in s, modelling String.prototype.includes. -/
def hasSeq : List Char → List Char → Bool
  | [], pat => pat.isEmpty
  | a :: rest, pat => isPre pat (a :: rest) || hasSeq rest pat

/-- Suffix of s after the first occurrence of pat (empty when pat is absent). -/
def afterSeq : List Char → List Char → List Char
  | [], _ => []
  | a :: rest, pat => if isPre pat (a :: rest) then (a :: rest).drop pat.length else afterSeq rest pat

/-- Models new URL(url).pathname for simple scheme://host/path urls: the part
from the first slash after the scheme separator up to a query or fragment
delimiter, defaulting to a single slash. -/
def urlPathnameOf (url : String) : String :=
  let tail := afterSeq url.data "://".data
  let path := (tail.dropWhile (fun c => c != '/')).takeWhile (fun c => c != '?' && c != '#')
  if path.isEmpty then "/" else String.mk path

/-- The Integrity Map of the repository: imports maps specifiers to urls,
scopes maps url prefixes to override tables, integrity maps urls (or bare
specifiers) to digest strings. -/
structure ImportMap where
  imports : List (String × String)
  scopes : List (String × List (String × String))
  integrity : List (String × String)
deriving Repr, DecidableEq

/-- Models calculateIntegrity of src/import-map.ts: the digest string is the
sha384 tag, a dash, and the base64 digest of the content; hash abstracts
base64 of SHA-384 of the content bytes. -/
def calculateIntegrity (hash : String → String) (content : String) : String :=
  "sha384-" ++ hash content

/-- Models resolveModuleSpecifier of src/import-map.ts: a specifier present
in the imports table resolves to its mapped url, any other passes through. -/
def resolveModuleSpecifier (specifier : String) (importMap : ImportMap) : String :=
  match lookupStr importMap.imports specifier with
  | some url => url
  | none => specifier

/-- Models hasIntegrityCheck of src/import-map.ts, including the JS truthiness
of the double negation. -/
def hasIntegrityCheck (url : String) (importMap : ImportMap) : Bool :=
  strTruthy (lookupStr importMap.integrity url)

/-- Models getIntegrityHash of src/import-map.ts. -/
def getIntegrityHash (url : String) (importMap : ImportMap) : Option String :=
  lookupStr importMap.integrity url

/-- Models verifyIntegrity of src/import-map.ts: fetch the url, recompute the
digest of the body, compare with the expected digest string; a failed fetch is
caught and yields false. -/
def verifyIntegrity (hash : String → String) (fetch : String → Option String)
    (url expectedHash : String) : Bool :=
  match fetch url with
  | none => false
  | some content => calculateIntegrity hash content == expectedHash

/-- Models importWithIntegrity of src/import-map.ts. The ok value is the url
handed to the dynamic import; an error value is the message of the thrown
integrity failure. -/
def importWithIntegrity (hash : String → String) (fetch : String → Option String)
    (specifier : String) (importMap : ImportMap) : Except String String :=
  let resolvedUrl := resolveModuleSpecifier specifier importMap
  let integrity := getIntegrityHash resolvedUrl importMap
  if strTruthy integrity then
    if verifyIntegrity hash fetch resolvedUrl (integrity.getD "") then
      Except.ok resolvedUrl
    else
      Except.error ("Integrity check failed for module: " ++ resolvedUrl)
  else
    match importMap.imports.find? (fun p => p.2 == resolvedUrl && hasIntegrityCheck p.1 importMap) with
    | some p =>
      Except.error ("Integrity check failed for module: " ++ resolvedUrl ++ " (via " ++ p.1 ++ ")")
    | none => Except.ok resolvedUrl

/-- Models resolveSpecifier of module-integrity.js (and of
module-integrity-client.js): imports[specifier] or specifier, via JS falsiness. -/
def resolveSpecifierJs (importMap : ImportMap) (specifier : String) : String :=
  let r := lookupTruthy importMap.imports specifier
  if r != "" then r else specifier

/-- Models hasIntegrityConstraint of module-integrity.js: a direct integrity
entry for the url, or some imports entry whose target is the url and whose
specifier carries an integrity entry. -/
def hasIntegrityConstraint (importMap : ImportMap) (url : String) : Bool :=
  lookupTruthy importMap.integrity url != "" ||
  importMap.imports.any (fun p => p.2 == url && lookupTruthy importMap.integrity p.1 != "")

/-- The digest string module-integrity.js verifyIntegrity selects for a url:
the direct integrity entry if truthy, otherwise the integrity entry of the
first imports alias whose target is the url and whose entry is truthy,
otherwise the empty string (JS falsy). -/
def selectedIntegrityJs (importMap : ImportMap) (url : String) : String :=
  let direct := lookupTruthy importMap.integrity url
  if direct != "" then direct
  else
    match importMap.imports.find? (fun p => p.2 == url && lookupTruthy importMap.integrity p.1 != "") with
    | some p => lookupTruthy importMap.integrity p.1
    | none => ""

/-- Models verifyIntegrity of module-integrity.js (the generic-algorithm client
verifier of part 007): it substitutes the alias digest when there is no direct
one, splits the algorithm tag off the stored digest, recomputes the digest of
the fetched body with that algorithm, and compares. hashers names the digest
functions the WebCrypto runtime supports, keyed by algorithm tag; an unknown
tag makes crypto.subtle.digest throw, which the surrounding catch turns into
false, as does a failed fetch. -/
def verifyIntegrityJs (hashers : String → Option (String → String))
    (fetch : String → Option String) (importMap : ImportMap) (url : String) : Bool :=
  let integrity := selectedIntegrityJs importMap url
  if integrity == "" then true
  else
    match fetch url with
    | none => false
    | some content =>
      let algorithm := tagOf integrity
      match hashers algorithm with
      | none => false
      | some h => (algorithm ++ "-" ++ h content) == integrity

/-- Models importWithIntegrity of module-integrity.js: resolve, check for a
direct or aliased constraint, verify when constrained, then import. The ok
value is the url handed to the dynamic import. -/
def importWithIntegrityJs (hashers : String → Option (String → String))
    (fetch : String → Option String) (importMap : ImportMap) (specifier : String) :
    Except String String :=
  let url := resolveSpecifierJs importMap specifier
  if hasIntegrityConstraint importMap url then
    if verifyIntegrityJs hashers fetch importMap url then Except.ok url
    else Except.error ("Integrity check failed for module: " ++ url)
  else Except.ok url

/-- Models verifyIntegrity of module-integrity-client.js (the sha384-only
client verifier of part 006): same digest selection as module-integrity.js,
but a stored digest whose tag is not sha384 is rejected before any fetch or
hashing; sha384 abstracts the single supported digest function. -/
def verifyIntegritySha384Only (sha384 : String → String)
    (fetch : String → Option String) (importMap : ImportMap) (url : String) : Bool :=
  let integrity := selectedIntegrityJs importMap url
  if integrity == "" then true
  else if !(strStarts integrity "sha384-") then false
  else
    match fetch url with
    | none => false
    | some content => ("sha384-" ++ sha384 content) == integrity

/-- The last path component: models Node path.basename for file paths that do
not end in a slash. -/
def lastComponent (p : String) : String :=
  String.mk ((p.data.reverse.takeWhile (fun c => c != '/')).reverse)

/-- Models Node path.extname: the suffix of the last component from its last
dot, unless the dot is its first character. -/
def extnameOf (p : String) : String :=
  let base := (lastComponent p).data
  let t := base.reverse.takeWhile (fun c => c != '.')
  if t.length + 2 ≤ base.length then String.mk ('.' :: t.reverse) else ""

/-- Models path.basename(p, path.extname(p)): the last component stripped of
its extension, the derived module specifier of the generators. -/
def basenameNoExt (p : String) : String :=
  let base := (lastComponent p).data
  let e := (extnameOf p).data
  String.mk (base.take (base.length - e.length))

/-- The url generateImportMapWithIntegrity derives for a module path: the
path normalized to a leading slash, joined onto the base url, with
backslashes turned into forward slashes. -/
def moduleUrlOf (baseUrl modulePath : String) : String :=
  let normalizedPath := if strStarts modulePath "/" then modulePath else "/" ++ modulePath
  slashForward (pathJoin baseUrl normalizedPath)

/-- Models generateImportMapWithIntegrity of module-integrity-typescript.ts:
empty input violates the invariant and throws a ModuleIntegrityError;
otherwise each module contributes imports[specifier] = url and
integrity[url] = sha384 digest of its content. -/
def generateImportMapWithIntegrity (sha384 : String → String)
    (modules : List (String × String)) (baseUrl : String) : Except String ImportMap :=
  if modules.isEmpty then
    Except.error "[ModuleIntegrity] No modules provided for integrity calculation"
  else
    Except.ok
      { imports := modules.foldl
          (fun l m => insertStr l (basenameNoExt m.1) (moduleUrlOf baseUrl m.1)) []
        scopes := []
        integrity := modules.foldl
          (fun l m => insertStr l (moduleUrlOf baseUrl m.1) (calculateIntegrity sha384 m.2)) [] }

/-- One step of the client-side TypeScript generator of part 005: record
the entry, fetch the module body and record its sha384 digest under the url;
a fetch rejection propagates out of the generator. -/
def stepGenFetch (sha384 : String → String) (fetch : String → Option String)
    (acc : List (String × String) × List (String × String)) (m : String × String) :
    Except String (List (String × String) × List (String × String)) :=
  match fetch m.2 with
  | none => Except.error ("Failed to fetch " ++ m.2)
  | some content =>
    Except.ok (insertStr acc.1 m.1 m.2, insertStr acc.2 m.2 ("sha384-" ++ sha384 content))

/-- Models generateImportMapWithIntegrity of the client-side TypeScript
implementation (part 005): modules maps specifiers to urls, each url is
fetched and hashed. There is no empty-input check. -/
def generateImportMapFetch (sha384 : String → String) (fetch : String → Option String)
    (modules : List (String × String)) : Except String ImportMap :=
  (modules.foldlM (stepGenFetch sha384 fetch) ([], [])).map
    (fun a => { imports := a.1, scopes := [], integrity := a.2 })

/-- A failure record of the batch validators: url, expected digest, and either
the recomputed digest or an error reason. -/
structure VFailure where
  url : String
  expected : String
  actual : Option String
  reason : Option String
deriving Repr, DecidableEq

/-- The counters of validateBuildOutput of module-integrity-validator.js. -/
structure VResults where
  total : Nat
  passed : Nat
  failed : Nat
  missing : Nat
  failures : List VFailure
deriving Repr, DecidableEq

def initV : VResults := ⟨0, 0, 0, 0, []⟩

/-- Models the url-to-file-path mapping shared by both batch validators:
strip a leading slash, or take the pathname of an absolute url. -/
def urlToFilePath (url : String) : String :=
  if strStarts url "/" then dropFirst url
  else if hasSeq url.data "://".data then dropFirst (urlPathnameOf url)
  else url

/-- One loop iteration of validateBuildOutput (the generic-algorithm batch
validator): count the entry, look the file up, on a missing file record a
not-found failure, otherwise recompute the digest with the algorithm named by
the stored tag and compare. hashers models crypto.createHash: an algorithm it
does not know makes createHash throw, which nothing in this validator catches,
so the whole run aborts with an error. -/
def stepBO (hashers : String → Option (String → String)) (files : String → Option String)
    (distDir : String) (r : VResults) (e : String × String) : Except String VResults :=
  let r1 : VResults := { r with total := r.total + 1 }
  let fullPath := pathJoin distDir (urlToFilePath e.1)
  match files fullPath with
  | none =>
    Except.ok { r1 with
      missing := r1.missing + 1
      failures := r1.failures ++ [⟨e.1, e.2, none, some "File not found"⟩] }
  | some content =>
    let algorithm := tagOf e.2
    match hashers algorithm with
    | none => Except.error ("Digest method not supported: " ++ algorithm)
    | some h =>
      let actualHash := algorithm ++ "-" ++ h content
      if actualHash == e.2 then Except.ok { r1 with passed := r1.passed + 1 }
      else
        Except.ok { r1 with
          failed := r1.failed + 1
          failures := r1.failures ++ [⟨e.1, e.2, some actualHash, none⟩] }

/-- Models validateBuildOutput of module-integrity-validator.js from the point
where the import map has been parsed: an empty integrity table aborts, then
every integrity entry is validated in order against the dist directory. -/
def validateBuildOutput (hashers : String → Option (String → String))
    (files : String → Option String) (distDir : String)
    (integrity : List (String × String)) : Except String VResults :=
  if integrity.isEmpty then Except.error "No integrity hashes found in import map"
  else integrity.foldlM (stepBO hashers files distDir) initV

/-- The result object of validateNextJSBuildIntegrity, with its success flag. -/
structure NVResults where
  total : Nat
  passed : Nat
  failed : Nat
  missing : Nat
  failures : List VFailure
  success : Bool
deriving Repr, DecidableEq

def initNV : NVResults := ⟨0, 0, 0, 0, [], false⟩

/-- One loop iteration of validateNextJSBuildIntegrity (the sha384-only batch
validator): count the entry, reject a stored digest whose tag is not sha384
before touching the filesystem, then check existence, recompute the sha384
digest and compare. -/
def stepNext (sha384 : String → String) (files : String → Option String)
    (distDir : String) (r : NVResults) (e : String × String) : NVResults :=
  let r1 : NVResults := { r with total := r.total + 1 }
  if !(strStarts e.2 "sha384-") then
    { r1 with
      failed := r1.failed + 1
      failures := r1.failures ++
        [⟨e.1, e.2, none, some "Unsupported hash algorithm. Only SHA-384 is supported."⟩] }
  else
    let fullPath := pathJoin distDir (urlToFilePath e.1)
    match files fullPath with
    | none =>
      { r1 with
        missing := r1.missing + 1
        failures := r1.failures ++ [⟨e.1, e.2, none, some "File not found"⟩] }
    | some content =>
      let actualHash := "sha384-" ++ sha384 content
      if actualHash == e.2 then { r1 with passed := r1.passed + 1 }
      else
        { r1 with
          failed := r1.failed + 1
          failures := r1.failures ++ [⟨e.1, e.2, some actualHash, none⟩] }

/-- The loop of validateNextJSBuildIntegrity over the integrity entries. -/
def runNext (sha384 : String → String) (files : String → Option String)
    (distDir : String) (integrity : List (String × String)) : NVResults :=
  integrity.foldl (stepNext sha384 files distDir) initNV

/-- Models validateNextJSBuildIntegrity of module-integrity-validator.js from
the point where the import map has been parsed: an empty integrity table
throws, otherwise every entry is validated and the success flag is set exactly
when no failure was recorded. -/
def validateNextJSBuildIntegrity (sha384 : String → String)
    (files : String → Option String) (distDir : String)
    (integrity : List (String × String)) : Except String NVResults :=
  if integrity.isEmpty then Except.error "No integrity hashes found in import map"
  else
    let r := runNext sha384 files distDir integrity
    Except.ok { r with success := r.failures.isEmpty }

/-- Modelled from the spec: the resolution the specification describes for a
map with a scopes section, which is implemented nowhere under src. The scope
whose url prefix is the longest match of the referrer and which maps the
specifier overrides the top-level imports; otherwise resolution falls back to
the global imports table, else the specifier passes through. -/
def resolveWithScopesSpec (referrer specifier : String) (m : ImportMap) : String :=
  let applicable := m.scopes.filter
    (fun sc => strStarts referrer sc.1 && (lookupStr sc.2 specifier).isSome)
  let best := applicable.foldl
    (fun acc sc =>
      match acc with
      | none => some sc
      | some b => if sc.1.length > b.1.length then some sc else some b) none
  match best with
  | some sc =>
    match lookupStr sc.2 specifier with
    | some u => u
    | none => resolveModuleSpecifier specifier m
  | none => resolveModuleSpecifier specifier m

/-- Componentwise combination of validation results: counters add, failure
lists concatenate, the left success flag is kept (the loop never writes it). -/
def addNV (a b : NVResults) : NVResults :=
  ⟨a.total + b.total, a.passed + b.passed, a.failed + b.failed, a.missing + b.missing,
    a.failures ++ b.failures, a.success⟩

/-- Componentwise combination for the generic validator results. -/
def addV (a b : VResults) : VResults :=
  ⟨a.total + b.total, a.passed + b.passed, a.failed + b.failed, a.missing + b.missing,
    a.failures ++ b.failures⟩

/-- The loop of validateBuildOutput over the integrity entries. -/
def runBO (hashers : String → Option (String → String)) (files : String → Option String)
    (distDir : String) (integrity : List (String × String)) : Except String VResults :=
  integrity.foldlM (stepBO hashers files distDir) initV

/-- The counter invariant of the sha384-only batch validator. -/
def nvInv (r : NVResults) : Prop :=
  r.total = r.passed + r.failed + r.missing ∧ r.failures.length = r.failed + r.missing

/-- No two consecutive slashes in a character list. -/
def noDblSlash : List Char → Bool
  | a :: b :: rest => !(a == '/' && b == '/') && noDblSlash (b :: rest)
  | _ => true

/-- A module path as the build generator receives it: nonempty, relative, with
single slashes and no backslashes. -/
def goodModulePath (p : String) : Prop :=
  p ≠ "" ∧ strStarts p "/" = false ∧ noDblSlash p.data = true ∧ ∀ c ∈ p.data, c ≠ '\\'

instance : DecidablePred goodModulePath := fun p => by
  unfold goodModulePath; infer_instance

/-! Auxiliary lemmas about the string and association list helpers. -/

theorem isPre_append (l t : List Char) : isPre l (l ++ t) = true := by
  induction l with
  | nil => rfl
  | cons a r ih => simp [isPre, ih]

theorem strStarts_append (pre rest : String) : strStarts (pre ++ rest) pre = true := by
  show isPre pre.data (pre ++ rest).data = true
  have h : (pre ++ rest).data = pre.data ++ rest.data := rfl
  rw [h]
  exact isPre_append _ _

theorem collapse_of_noDbl : ∀ l : List Char, noDblSlash l = true → collapseSlashes l = l := by
  intro l
  induction l with
  | nil => intro _; rfl
  | cons a t ih =>
    cases t with
    | nil => intro _; rfl
    | cons b r =>
      intro h
      simp only [noDblSlash, Bool.and_eq_true, Bool.not_eq_true'] at h
      simp only [collapseSlashes]
      rw [if_neg (by simp [h.1]), ih h.2]

theorem map_id_of_eq (f : Char → Char) :
    ∀ l : List Char, (∀ c ∈ l, f c = c) → l.map f = l := by
  intro l
  induction l with
  | nil => intro _; rfl
  | cons a t ih =>
    intro h
    simp only [List.map_cons]
    rw [h a (List.mem_cons_self _ _), ih (fun c hc => h c (List.mem_cons_of_mem _ hc))]

theorem mem_insertStr (k0 v0 k v : String) :
    ∀ l : List (String × String), (k, v) ∈ insertStr l k0 v0 → (k, v) ∈ l ∨ (k = k0 ∧ v = v0) := by
  intro l
  induction l with
  | nil =>
    intro h
    simp only [insertStr, List.mem_singleton] at h
    exact Or.inr (by simpa [Prod.ext_iff] using h)
  | cons a t ih =>
    intro h
    obtain ⟨k1, v1⟩ := a
    simp only [insertStr] at h
    split at h
    · rcases List.mem_cons.mp h with h1 | h1
      · exact Or.inr (by simpa [Prod.ext_iff] using h1)
      · exact Or.inl (List.mem_cons_of_mem _ h1)
    · rcases List.mem_cons.mp h with h1 | h1
      · exact Or.inl (h1 ▸ List.mem_cons_self _ _)
      · rcases ih h1 with h2 | h2
        · exact Or.inl (List.mem_cons_of_mem _ h2)
        · exact Or.inr h2

theorem insertStr_append (k0 v0 : String) :
    ∀ l : List (String × String), k0 ∉ l.map Prod.fst →
      insertStr l k0 v0 = l ++ [(k0, v0)] := by
  intro l
  induction l with
  | nil => intro _; rfl
  | cons a t ih =>
    intro h
    obtain ⟨k1, v1⟩ := a
    simp only [List.map_cons, List.mem_cons] at h
    push_neg at h
    simp only [insertStr]
    rw [if_neg (by simp; exact fun e => h.1 e.symm), ih h.2]
    simp

theorem insertStr_ne_nil (l : List (String × String)) (k v : String) :
    insertStr l k v ≠ [] := by
  cases l with
  | nil => simp [insertStr]
  | cons a t =>
    obtain ⟨k1, v1⟩ := a
    simp only [insertStr]
    split <;> simp

theorem foldl_insert_ne_nil (f g : String × String → String) :
    ∀ (ms : List (String × String)) (acc : List (String × String)),
      acc ≠ [] → ms.foldl (fun l m => insertStr l (f m) (g m)) acc ≠ [] := by
  intro ms
  induction ms with
  | nil => intro acc h; simpa using h
  | cons m t ih => intro acc _; exact ih _ (insertStr_ne_nil _ _ _)

theorem mem_foldl_insert (f g : String × String → String) :
    ∀ (ms : List (String × String)) (acc : List (String × String)) (k v : String),
      (k, v) ∈ ms.foldl (fun l m => insertStr l (f m) (g m)) acc →
      (k, v) ∈ acc ∨ ∃ m ∈ ms, k = f m ∧ v = g m := by
  intro ms
  induction ms with
  | nil => intro acc k v h; exact Or.inl h
  | cons m t ih =>
    intro acc k v h
    rcases ih _ _ _ h with h1 | h1
    · rcases mem_insertStr _ _ _ _ _ h1 with h2 | h2
      · exact Or.inl h2
      · exact Or.inr ⟨m, List.mem_cons_self _ _, h2⟩
    · obtain ⟨m1, hm1, he⟩ := h1
      exact Or.inr ⟨m1, List.mem_cons_of_mem _ hm1, he⟩

theorem foldl_insert_of_nodup (f g : String × String → String) :
    ∀ (ms : List (String × String)) (acc : List (String × String)),
      (∀ m ∈ ms, f m ∉ acc.map Prod.fst) → (ms.map f).Nodup →
      ms.foldl (fun l m => insertStr l (f m) (g m)) acc =
        acc ++ ms.map (fun m => (f m, g m)) := by
  intro ms
  induction ms with
  | nil => intro acc _ _; simp
  | cons m t ih =>
    intro acc hna hnd
    simp only [List.map_cons, List.nodup_cons] at hnd
    simp only [List.foldl_cons]
    rw [insertStr_append _ _ _ (hna m (List.mem_cons_self _ _))]
    rw [ih (acc ++ [(f m, g m)])
      (by
        intro m1 hm1
        simp only [List.map_append, List.mem_append, List.map_cons, List.map_nil,
          List.mem_singleton]
        push_neg
        refine ⟨hna m1 (List.mem_cons_of_mem _ hm1), ?_⟩
        intro he
        exact hnd.1 (he ▸ List.mem_map_of_mem f hm1))
      hnd.2]
    simp

/-! Additivity of the validator loops: each iteration contributes a delta that
is independent of the accumulated state, so a run splits around any entry. -/

theorem addNV_init_right (r : NVResults) : addNV r initNV = r := by
  cases r
  simp [addNV, initNV]

theorem addNV_assoc (a b c : NVResults) : addNV (addNV a b) c = addNV a (addNV b c) := by
  simp [addNV, Nat.add_assoc]

theorem stepNext_eq_add (sha : String → String) (files : String → Option String)
    (d : String) (r : NVResults) (e : String × String) :
    stepNext sha files d r e = addNV r (stepNext sha files d initNV e) := by
  simp only [stepNext, initNV]
  by_cases h1 : strStarts e.2 "sha384-"
  · simp only [h1, Bool.not_true, Bool.false_eq_true, if_false]
    cases h2 : files (pathJoin d (urlToFilePath e.1)) with
    | none => simp [addNV]
    | some content =>
      by_cases h3 : ("sha384-" ++ sha content) == e.2
      · simp [h3, addNV]
      · simp [h3, addNV]
  · simp only [Bool.not_eq_true] at h1
    simp [h1, addNV]

theorem foldl_stepNext_add (sha : String → String) (files : String → Option String)
    (d : String) :
    ∀ (l : List (String × String)) (r : NVResults),
      l.foldl (stepNext sha files d) r = addNV r (runNext sha files d l) := by
  intro l
  induction l with
  | nil => intro r; simp [runNext, addNV_init_right]
  | cons e t ih =>
    intro r
    show (e :: t).foldl (stepNext sha files d) r = addNV r (runNext sha files d (e :: t))
    have hrun : runNext sha files d (e :: t) =
        addNV (stepNext sha files d initNV e) (runNext sha files d t) := by
      show (e :: t).foldl (stepNext sha files d) initNV = _
      rw [List.foldl_cons, ih]
    rw [List.foldl_cons, ih, stepNext_eq_add, hrun, addNV_assoc]

theorem runNext_append (sha : String → String) (files : String → Option String)
    (d : String) (l1 l2 : List (String × String)) :
    runNext sha files d (l1 ++ l2) =
      addNV (runNext sha files d l1) (runNext sha files d l2) := by
  unfold runNext
  rw [List.foldl_append, foldl_stepNext_add]
  rfl

theorem runNext_cons (sha : String → String) (files : String → Option String)
    (d : String) (e : String × String) (l : List (String × String)) :
    runNext sha files d (e :: l) =
      addNV (stepNext sha files d initNV e) (runNext sha files d l) := by
  show (e :: l).foldl (stepNext sha files d) initNV = _
  rw [List.foldl_cons, foldl_stepNext_add]

theorem addV_init_right (r : VResults) : addV r initV = r := by
  cases r
  simp [addV, initV]

theorem addV_assoc (a b c : VResults) : addV (addV a b) c = addV a (addV b c) := by
  simp [addV, Nat.add_assoc]

theorem stepBO_eq_add (hashers : String → Option (String → String))
    (files : String → Option String) (d : String) (r : VResults) (e : String × String) :
    stepBO hashers files d r e = (stepBO hashers files d initV e).map (addV r) := by
  simp only [stepBO, initV]
  cases h2 : files (pathJoin d (urlToFilePath e.1)) with
  | none => simp [addV, Except.map]
  | some content =>
    cases h3 : hashers (tagOf e.2) with
    | none => simp [Except.map]
    | some h =>
      by_cases h4 : (tagOf e.2 ++ "-" ++ h content) == e.2
      · simp [h4, addV, Except.map]
      · simp [h4, addV, Except.map]

theorem foldlM_stepBO_add (hashers : String → Option (String → String))
    (files : String → Option String) (d : String) :
    ∀ (l : List (String × String)) (r : VResults),
      l.foldlM (stepBO hashers files d) r = (runBO hashers files d l).map (addV r) := by
  intro l
  induction l with
  | nil =>
    intro r
    show Except.ok r = (Except.ok initV).map (addV r)
    show Except.ok r = Except.ok (addV r initV)
    rw [addV_init_right]
  | cons e t ih =>
    intro r
    have hrun : runBO hashers files d (e :: t) =
        match stepBO hashers files d initV e with
        | Except.error msg => Except.error msg
        | Except.ok dl => (runBO hashers files d t).map (addV dl) := by
      show (e :: t).foldlM (stepBO hashers files d) initV = _
      rw [List.foldlM_cons]
      cases hs : stepBO hashers files d initV e with
      | error msg => rfl
      | ok dl =>
        show (t.foldlM (stepBO hashers files d) dl : Except String VResults) = _
        rw [ih dl]
    rw [List.foldlM_cons, stepBO_eq_add, hrun]
    cases hs : stepBO hashers files d initV e with
    | error msg => rfl
    | ok dl =>
      show (t.foldlM (stepBO hashers files d) (addV r dl) : Except String VResults) = _
      rw [ih (addV r dl)]
      cases hr : runBO hashers files d t with
      | error msg => rfl
      | ok rt =>
        show Except.ok (addV (addV r dl) rt) = Except.ok (addV r (addV dl rt))
        rw [addV_assoc]

/-! Classification of single validator iterations, and the counter invariant. -/

theorem stepNext_missing (sha : String → String) (files : String → Option String)
    (d u dg : String) (hs : strStarts dg "sha384-" = true)
    (hf : files (pathJoin d (urlToFilePath u)) = none) :
    stepNext sha files d initNV (u, dg) =
      ⟨1, 0, 0, 1, [⟨u, dg, none, some "File not found"⟩], false⟩ := by
  simp [stepNext, hs, hf, initNV]

theorem stepNext_unsupported (sha : String → String) (files : String → Option String)
    (d u dg : String) (hs : strStarts dg "sha384-" = false) :
    stepNext sha files d initNV (u, dg) =
      ⟨1, 0, 1, 0,
        [⟨u, dg, none, some "Unsupported hash algorithm. Only SHA-384 is supported."⟩],
        false⟩ := by
  simp [stepNext, hs, initNV]

theorem stepNext_pass (sha : String → String) (files : String → Option String)
    (d u dg c : String) (hs : strStarts dg "sha384-" = true)
    (hf : files (pathJoin d (urlToFilePath u)) = some c)
    (hh : "sha384-" ++ sha c = dg) :
    stepNext sha files d initNV (u, dg) = ⟨1, 1, 0, 0, [], false⟩ := by
  simp [stepNext, hs, hf, hh, initNV]

theorem stepBO_missing (hashers : String → Option (String → String))
    (files : String → Option String) (d u dg : String)
    (hf : files (pathJoin d (urlToFilePath u)) = none) :
    stepBO hashers files d initV (u, dg) =
      Except.ok ⟨1, 0, 0, 1, [⟨u, dg, none, some "File not found"⟩]⟩ := by
  simp [stepBO, hf, initV]

theorem runBO_append (hashers : String → Option (String → String))
    (files : String → Option String) (d : String) (l1 l2 : List (String × String)) :
    runBO hashers files d (l1 ++ l2) =
      (runBO hashers files d l1).bind (fun r1 => (runBO hashers files d l2).map (addV r1)) := by
  unfold runBO
  rw [List.foldlM_append]
  cases hr : (l1.foldlM (stepBO hashers files d) initV : Except String VResults) with
  | error m => rfl
  | ok r1 =>
    show (l2.foldlM (stepBO hashers files d) r1 : Except String VResults) = _
    rw [foldlM_stepBO_add]
    rfl

theorem runBO_cons (hashers : String → Option (String → String))
    (files : String → Option String) (d : String) (e : String × String)
    (l : List (String × String)) :
    runBO hashers files d (e :: l) =
      (stepBO hashers files d initV e).bind
        (fun dl => (runBO hashers files d l).map (addV dl)) := by
  show (e :: l).foldlM (stepBO hashers files d) initV = _
  rw [List.foldlM_cons]
  cases hs : stepBO hashers files d initV e with
  | error m => rfl
  | ok dl =>
    show (l.foldlM (stepBO hashers files d) dl : Except String VResults) = _
    rw [foldlM_stepBO_add]
    rfl

theorem nvInv_initNV : nvInv initNV := by
  constructor <;> rfl

theorem nvInv_step (sha : String → String) (files : String → Option String)
    (d : String) (e : String × String) : nvInv (stepNext sha files d initNV e) := by
  unfold nvInv stepNext initNV
  by_cases h1 : strStarts e.2 "sha384-"
  · simp only [h1, Bool.not_true, Bool.false_eq_true, if_false]
    cases h2 : files (pathJoin d (urlToFilePath e.1)) with
    | none => simp
    | some content =>
      by_cases h3 : ("sha384-" ++ sha content) == e.2
      · simp [h3]
      · simp [h3]
  · simp only [Bool.not_eq_true] at h1
    simp [h1]

theorem nvInv_add {a b : NVResults} (ha : nvInv a) (hb : nvInv b) : nvInv (addNV a b) := by
  obtain ⟨ha1, ha2⟩ := ha
  obtain ⟨hb1, hb2⟩ := hb
  constructor
  · simp [addNV]
    omega
  · simp [addNV, ha2, hb2]
    omega

theorem nvInv_run (sha : String → String) (files : String → Option String)
    (d : String) : ∀ l : List (String × String), nvInv (runNext sha files d l) := by
  intro l
  induction l with
  | nil => exact nvInv_initNV
  | cons e t ih =>
    rw [runNext_cons]
    exact nvInv_add (nvInv_step sha files d e) ih

theorem runNext_all_pass (sha : String → String) (files : String → Option String)
    (d : String) :
    ∀ l : List (String × String),
      (∀ e ∈ l, stepNext sha files d initNV e = ⟨1, 1, 0, 0, [], false⟩) →
      (runNext sha files d l).failed = 0 ∧ (runNext sha files d l).missing = 0 := by
  intro l
  induction l with
  | nil => intro _; exact ⟨rfl, rfl⟩
  | cons e t ih =>
    intro h
    rw [runNext_cons, h e (List.mem_cons_self _ _)]
    have ht := ih (fun e1 he1 => h e1 (List.mem_cons_of_mem _ he1))
    simp [addNV, ht.1, ht.2]

/-! Lemmas connecting a generated module url to the validator path lookup. -/

theorem moduleUrl_slash (p : String) (h : goodModulePath p) :
    moduleUrlOf "/" p = "/" ++ p := by
  obtain ⟨hne, hst, hnd, hnb⟩ := h
  have hdata : p.data ≠ [] := by
    intro hd
    exact hne (by cases p; simp at hd; simp [hd])
  unfold moduleUrlOf
  rw [hst]
  simp only [Bool.false_eq_true, if_false]
  have hjoin : pathJoin "/" ("/" ++ p) = "/" ++ p := by
    show String.mk (collapseSlashes ('/' :: '/' :: '/' :: p.data)) = "/" ++ p
    have e1 : collapseSlashes ('/' :: '/' :: '/' :: p.data) =
        collapseSlashes ('/' :: p.data) := by
      cases p.data with
      | nil => rfl
      | cons c cs => simp [collapseSlashes]
    rw [e1]
    cases hcase : p.data with
    | nil => exact absurd hcase hdata
    | cons c cs =>
      have hc : ('/' == c) = false := by
        have h5 : isPre ("/" : String).data p.data = false := hst
        rw [hcase] at h5
        simpa [isPre] using h5
      have hc2 : (c == '/') = false := by
        simp only [beq_eq_false_iff_ne, ne_eq] at hc ⊢
        exact fun e => hc e.symm
      show String.mk (collapseSlashes ('/' :: c :: cs)) = "/" ++ p
      have e2 : collapseSlashes ('/' :: c :: cs) = '/' :: collapseSlashes (c :: cs) := by
        simp [collapseSlashes, hc2]
      rw [e2, collapse_of_noDbl (c :: cs) (hcase ▸ hnd), ← hcase]
      rfl
  rw [hjoin]
  show String.mk (('/' :: p.data).map (fun c => if c == '\\' then '/' else c)) = "/" ++ p
  rw [map_id_of_eq _ ('/' :: p.data) ?hmap]
  · rfl
  case hmap =>
    intro c hc
    rcases List.mem_cons.mp hc with h1 | h1
    · simp [h1]
    · simp [hnb c h1]

theorem urlToFilePath_slash (p : String) : urlToFilePath ("/" ++ p) = p := by
  unfold urlToFilePath
  rw [strStarts_append "/" p]
  rfl

/-! Claim theorems. -/

/-- C1: the claim says that when the resolved url has no direct integrity
entry but an imports alias pointing at the same url carries one, every
importer rejects and no verifier ever substitutes the alias digest. The
function importWithIntegrity of src/import-map.ts does reject, but the
client verifyIntegrity of module-integrity.js substitutes the alias digest:
at the test-suite map for specifier G (alias bare2 carrying the digest of the
bytes served at the resolved url), the client import succeeds while the
src/import-map.ts one rejects. This theorem evaluates both implementations
at that input, exhibiting the divergence. -/
theorem c1_alias_substitution_divergence :
    importWithIntegrityJs (fun a => if a == "sha384" then some (fun s => s) else none)
      (fun u => if u == "../log?name=F" then some "F" else none)
      { imports := [("../log?name=G", "../log?name=F"), ("bare2", "../log?name=F")]
        scopes := []
        integrity := [("bare2", "sha384-F")] } "../log?name=G" = Except.ok "../log?name=F" ∧
    importWithIntegrity (fun s => s)
      (fun u => if u == "../log?name=F" then some "F" else none) "../log?name=G"
      { imports := [("../log?name=G", "../log?name=F"), ("bare2", "../log?name=F")]
        scopes := []
        integrity := [("bare2", "sha384-F")] } =
      Except.error "Integrity check failed for module: ../log?name=F (via bare2)" :=
  ⟨rfl, rfl⟩

/-- C2 counterexample: the claim says resolution honors an applicable scopes
override for the referrer before falling back to the top-level imports. On a
map whose scope for the referrer overrides the specifier, the code resolver
returns the global imports value while the resolution described by the
specification returns the scoped value, so the claim is false. -/
theorem c2_counterexample :
    resolveWithScopesSpec "/app/main.js" "a"
      { imports := [("a", "global.js")]
        scopes := [("/app/", [("a", "scoped.js")])]
        integrity := [] } = "scoped.js" ∧
    resolveModuleSpecifier "a"
      { imports := [("a", "global.js")]
        scopes := [("/app/", [("a", "scoped.js")])]
        integrity := [] } = "global.js" ∧
    ("scoped.js" : String) ≠ "global.js" :=
  ⟨rfl, rfl, by decide⟩

/-- C2 amended: resolveModuleSpecifier takes no referrer and never consults
the scopes section. Resolution is invariant under the scopes field; a
specifier present in imports resolves to its mapped url, any other specifier
passes through unchanged. -/
theorem c2_resolution_ignores_scopes :
    (∀ (specifier : String) (imports integ : List (String × String))
        (sc1 sc2 : List (String × List (String × String))),
        resolveModuleSpecifier specifier ⟨imports, sc1, integ⟩ =
          resolveModuleSpecifier specifier ⟨imports, sc2, integ⟩) ∧
    (∀ (specifier : String) (m : ImportMap) (url : String),
        lookupStr m.imports specifier = some url →
        resolveModuleSpecifier specifier m = url) ∧
    (∀ (specifier : String) (m : ImportMap),
        lookupStr m.imports specifier = none →
        resolveModuleSpecifier specifier m = specifier) := by
  refine ⟨fun _ _ _ _ _ => rfl, ?_, ?_⟩
  · intro s m u h
    simp [resolveModuleSpecifier, h]
  · intro s m h
    simp [resolveModuleSpecifier, h]

/-- C2 witness: the amended theorem applied at a concrete map, with its
lookup hypotheses discharged by evaluation. -/
theorem c2_resolution_ignores_scopes_witness :
    lookupStr ([("a", "x.js")] : List (String × String)) "a" = some "x.js" ∧
    resolveModuleSpecifier "a"
      { imports := [("a", "x.js")], scopes := [], integrity := [] } = "x.js" ∧
    lookupStr ([("a", "x.js")] : List (String × String)) "b" = none ∧
    resolveModuleSpecifier "b"
      { imports := [("a", "x.js")], scopes := [], integrity := [] } = "b" :=
  ⟨rfl,
    c2_resolution_ignores_scopes.2.1 "a"
      { imports := [("a", "x.js")], scopes := [], integrity := [] } "x.js" rfl,
    rfl,
    c2_resolution_ignores_scopes.2.2 "b"
      { imports := [("a", "x.js")], scopes := [], integrity := [] } rfl⟩

/-- C3 counterexample: the claim says no verifier ever recomputes a digest
with a foreign algorithm tag and that such a check never succeeds, naming
validateBuildOutput of module-integrity-validator.js as the batch
recomputation step. But validateBuildOutput derives the algorithm from the
stored tag: on an integrity entry tagged sha256 whose sha256 digest matches
the file on disk, the run reports the entry as passed, so the check succeeded
and the content was hashed with the foreign algorithm. -/
theorem c3_counterexample :
    validateBuildOutput (fun a => if a == "sha256" then some (fun s => s) else none)
      (fun p => if p == "dist/u.js" then some "C" else none) "dist"
      [("/u.js", "sha256-C")] = Except.ok ⟨1, 1, 0, 0, []⟩ :=
  rfl

/-- C3 amended: the sha384-only verifiers fail closed on a foreign algorithm
tag. The client verifyIntegrity of module-integrity-client.js returns false
for a stored digest not tagged sha384 whatever the hash function and fetch
results are, and validateNextJSBuildIntegrity counts such an entry as failed
with an unsupported-algorithm reason without consulting the filesystem. The
older validateBuildOutput instead recomputes with the algorithm named in the
stored tag (see the counterexample). -/
theorem c3_sha384_only_fails_closed :
    (∀ (sha384 : String → String) (fetch : String → Option String)
        (m : ImportMap) (url i : String),
        lookupStr m.integrity url = some i → i ≠ "" →
        strStarts i "sha384-" = false →
        verifyIntegritySha384Only sha384 fetch m url = false) ∧
    (∀ (sha384 : String → String) (files : String → Option String)
        (distDir u dg : String),
        strStarts dg "sha384-" = false →
        runNext sha384 files distDir [(u, dg)] =
          ⟨1, 0, 1, 0,
            [⟨u, dg, none, some "Unsupported hash algorithm. Only SHA-384 is supported."⟩],
            false⟩) := by
  constructor
  · intro sha fetch m url i hl hne hs
    unfold verifyIntegritySha384Only selectedIntegrityJs
    simp [lookupTruthy, hl, hne, hs]
  · intro sha files d u dg hs
    show stepNext sha files d initNV (u, dg) = _
    exact stepNext_unsupported sha files d u dg hs

/-- C3 witness: the amended theorem applied at a sha256-tagged digest, with
the hypotheses discharged by evaluation. -/
theorem c3_sha384_only_fails_closed_witness :
    verifyIntegritySha384Only (fun s => s) (fun _ => some "X")
      { imports := [], scopes := [], integrity := [("u.js", "sha256-Q")] } "u.js" = false ∧
    runNext (fun s => s) (fun _ => none) "dist" [("u.js", "sha256-Q")] =
      ⟨1, 0, 1, 0,
        [⟨"u.js", "sha256-Q", none, some "Unsupported hash algorithm. Only SHA-384 is supported."⟩],
        false⟩ :=
  ⟨c3_sha384_only_fails_closed.1 (fun s => s) (fun _ => some "X")
      { imports := [], scopes := [], integrity := [("u.js", "sha256-Q")] } "u.js" "sha256-Q"
      rfl (by decide) rfl,
    c3_sha384_only_fails_closed.2 (fun s => s) (fun _ => none) "dist" "u.js" "sha256-Q" rfl⟩

/-- C4: a resolved url with no direct integrity entry and no aliasing imports
entry carrying one is imported unconstrained: importWithIntegrity of
src/import-map.ts returns the resolved url to the dynamic import for every
hash function and every fetch behavior, so no verification fetch or digest
comparison can influence the outcome. -/
theorem c4_unconstrained_import (hash : String → String) (fetch : String → Option String)
    (specifier : String) (m : ImportMap) (url : String)
    (hres : resolveModuleSpecifier specifier m = url)
    (hdir : lookupStr m.integrity url = none)
    (halias : ∀ p ∈ m.imports, p.2 = url → lookupStr m.integrity p.1 = none) :
    importWithIntegrity hash fetch specifier m = Except.ok url := by
  have hfind : m.imports.find? (fun p => p.2 == url && hasIntegrityCheck p.1 m) = none := by
    rw [List.find?_eq_none]
    intro p hp
    by_cases h2 : p.2 = url
    · simp [hasIntegrityCheck, halias p hp h2, strTruthy, h2]
    · simp [h2]
  simp only [importWithIntegrity, getIntegrityHash]
  rw [hres]
  simp only [hdir, strTruthy, Bool.false_eq_true, if_false, hfind]

/-- C4 witness: a map with one unconstrained alias, a fetch that always
fails, and the import still proceeding to the resolved url. -/
theorem c4_unconstrained_import_witness :
    importWithIntegrity (fun s => s) (fun _ => none) "a"
      { imports := [("a", "x.js")], scopes := [], integrity := [] } = Except.ok "x.js" :=
  c4_unconstrained_import (fun s => s) (fun _ => none) "a"
    { imports := [("a", "x.js")], scopes := [], integrity := [] } "x.js"
    rfl rfl (fun _ _ _ => rfl)

/-- C5: with a direct integrity entry for the resolved url and a successful
fetch, importWithIntegrity of src/import-map.ts recomputes the digest of the
fetched content and compares the canonical digest strings: on equality the
load proceeds to the url, on inequality it fails with the error naming the
url and the module is not imported. -/
theorem c5_direct_digest_comparison (hash : String → String) (fetch : String → Option String)
    (specifier : String) (m : ImportMap) (url stored content : String)
    (hres : resolveModuleSpecifier specifier m = url)
    (hdir : lookupStr m.integrity url = some stored)
    (hne : stored ≠ "")
    (hfetch : fetch url = some content) :
    importWithIntegrity hash fetch specifier m =
      if calculateIntegrity hash content = stored then Except.ok url
      else Except.error ("Integrity check failed for module: " ++ url) := by
  simp only [importWithIntegrity, getIntegrityHash]
  rw [hres]
  simp only [hdir, strTruthy, Option.getD_some, verifyIntegrity, hfetch]
  rw [if_pos (by simp [hne])]
  by_cases h : calculateIntegrity hash content = stored
  · simp [h]
  · simp [h]

/-- C5 witness: the theorem applied at a matching digest (import proceeds)
and at a tampered digest (import rejected with the url in the message). -/
theorem c5_direct_digest_comparison_witness :
    importWithIntegrity (fun s => s) (fun u => if u == "x.js" then some "BODY" else none) "a"
      { imports := [("a", "x.js")], scopes := [], integrity := [("x.js", "sha384-BODY")] } =
      Except.ok "x.js" ∧
    importWithIntegrity (fun s => s) (fun u => if u == "x.js" then some "EVIL" else none) "a"
      { imports := [("a", "x.js")], scopes := [], integrity := [("x.js", "sha384-BODY")] } =
      Except.error "Integrity check failed for module: x.js" := by
  constructor
  · have h := c5_direct_digest_comparison (fun s => s)
      (fun u => if u == "x.js" then some "BODY" else none) "a"
      { imports := [("a", "x.js")], scopes := [], integrity := [("x.js", "sha384-BODY")] }
      "x.js" "sha384-BODY" "BODY" rfl rfl (by decide) rfl
    rw [if_pos (by decide)] at h
    exact h
  · have h := c5_direct_digest_comparison (fun s => s)
      (fun u => if u == "x.js" then some "EVIL" else none) "a"
      { imports := [("a", "x.js")], scopes := [], integrity := [("x.js", "sha384-BODY")] }
      "x.js" "sha384-BODY" "EVIL" rfl rfl (by decide) rfl
    rw [if_neg (by decide)] at h
    exact h

/-- C6 counterexample: the claim says every integrity entry whose mapped file
does not exist is counted in missing with a not-found reason. In
validateNextJSBuildIntegrity the algorithm tag is checked before the
filesystem: an entry tagged sha256 whose file is absent is counted in failed
with an unsupported-algorithm reason and missing stays zero, so the claim as
stated is false. -/
theorem c6_counterexample :
    validateNextJSBuildIntegrity (fun s => s) (fun _ => none) "."
      [("u", "sha256-x")] =
      Except.ok ⟨1, 0, 1, 0,
        [⟨"u", "sha256-x", none, some "Unsupported hash algorithm. Only SHA-384 is supported."⟩],
        false⟩ :=
  rfl

/-- C6 amended: a missing file is counted in missing with a not-found failure
record and the surrounding entries are still processed, provided (in
validateNextJSBuildIntegrity) the entry digest carries the supported sha384
tag; entries with a foreign tag are counted failed before the file is
consulted. In validateBuildOutput the existence check comes first, so there
the missing count and the continuation need no tag assumption. -/
theorem c6_missing_file_partial_failure :
    (∀ (sha384 : String → String) (files : String → Option String) (d u dg : String)
        (es1 es2 : List (String × String)),
        strStarts dg "sha384-" = true →
        files (pathJoin d (urlToFilePath u)) = none →
        (runNext sha384 files d (es1 ++ (u, dg) :: es2)).missing =
            (runNext sha384 files d es1).missing + 1 + (runNext sha384 files d es2).missing ∧
        (runNext sha384 files d (es1 ++ (u, dg) :: es2)).passed =
            (runNext sha384 files d es1).passed + (runNext sha384 files d es2).passed ∧
        (runNext sha384 files d (es1 ++ (u, dg) :: es2)).failed =
            (runNext sha384 files d es1).failed + (runNext sha384 files d es2).failed ∧
        (runNext sha384 files d (es1 ++ (u, dg) :: es2)).failures =
            (runNext sha384 files d es1).failures ++
              ⟨u, dg, none, some "File not found"⟩ :: (runNext sha384 files d es2).failures) ∧
    (∀ (hashers : String → Option (String → String)) (files : String → Option String)
        (d u dg : String) (es1 es2 : List (String × String)) (r1 r2 : VResults),
        runBO hashers files d es1 = Except.ok r1 →
        runBO hashers files d es2 = Except.ok r2 →
        files (pathJoin d (urlToFilePath u)) = none →
        runBO hashers files d (es1 ++ (u, dg) :: es2) =
          Except.ok ⟨r1.total + 1 + r2.total, r1.passed + r2.passed, r1.failed + r2.failed,
            r1.missing + 1 + r2.missing,
            r1.failures ++ ⟨u, dg, none, some "File not found"⟩ :: r2.failures⟩) := by
  constructor
  · intro sha files d u dg es1 es2 hs hf
    rw [runNext_append, runNext_cons, stepNext_missing sha files d u dg hs hf]
    refine ⟨?_, ?_, ?_, ?_⟩
    · simp [addNV]
      omega
    · simp [addNV]
    · simp [addNV]
    · simp [addNV]
  · intro hashers files d u dg es1 es2 r1 r2 h1 h2 hf
    rw [runBO_append, h1]
    show ((runBO hashers files d ((u, dg) :: es2)).map (addV r1)) = _
    rw [runBO_cons, stepBO_missing hashers files d u dg hf]
    show (((runBO hashers files d es2).map
        (addV ⟨1, 0, 0, 1, [⟨u, dg, none, some "File not found"⟩]⟩)).map (addV r1)) = _
    rw [h2]
    show Except.ok (addV r1 (addV ⟨1, 0, 0, 1, [⟨u, dg, none, some "File not found"⟩]⟩ r2)) = _
    simp [addV]
    omega

/-- C6 witness: both validators applied around a single missing sha384 entry
with empty surrounding runs. -/
theorem c6_missing_file_partial_failure_witness :
    (runNext (fun s => s) (fun _ => none) "." [("u.js", "sha384-H")]).missing = 1 ∧
    (runNext (fun s => s) (fun _ => none) "." [("u.js", "sha384-H")]).failures =
      [⟨"u.js", "sha384-H", none, some "File not found"⟩] ∧
    runBO (fun _ => some (fun s => s)) (fun _ => none) "." [("u.js", "sha384-H")] =
      Except.ok ⟨1, 0, 0, 1, [⟨"u.js", "sha384-H", none, some "File not found"⟩]⟩ := by
  have hN := c6_missing_file_partial_failure.1 (fun s => s) (fun _ => none) "."
    "u.js" "sha384-H" [] [] rfl rfl
  have hB := c6_missing_file_partial_failure.2 (fun _ => some (fun s => s)) (fun _ => none) "."
    "u.js" "sha384-H" [] [] initV initV rfl rfl rfl
  exact ⟨hN.1, hN.2.2.2, hB⟩

/-- C7: the round trip. Generating an import map from a directory of modules
(paths relative, slash-normalized) and validating the same unmodified
directory with the sha384-only batch validator yields failed = 0 and
missing = 0: every generated integrity entry recomputes to itself. -/
theorem c7_generate_validate_roundtrip (sha384 : String → String)
    (files : String → Option String) (distDir : String)
    (modules : List (String × String)) (im : ImportMap)
    (hgood : ∀ pc ∈ modules, goodModulePath pc.1)
    (hfiles : ∀ pc ∈ modules, files (pathJoin distDir pc.1) = some pc.2)
    (hgen : generateImportMapWithIntegrity sha384 modules "/" = Except.ok im) :
    ∃ R : NVResults,
      validateNextJSBuildIntegrity sha384 files distDir im.integrity = Except.ok R ∧
      R.failed = 0 ∧ R.missing = 0 := by
  have hne : modules.isEmpty = false := by
    by_contra hcon
    rw [Bool.not_eq_false] at hcon
    simp [generateImportMapWithIntegrity, hcon] at hgen
  have hmodne : modules ≠ [] := by
    intro h
    rw [h] at hne
    simp at hne
  simp only [generateImportMapWithIntegrity, hne, Bool.false_eq_true, if_false,
    Except.ok.injEq] at hgen
  have hint : im.integrity = modules.foldl
      (fun l m => insertStr l (moduleUrlOf "/" m.1) (calculateIntegrity sha384 m.2)) [] := by
    rw [← hgen]
  have hIGne : im.integrity ≠ [] := by
    rw [hint]
    cases modules with
    | nil => exact absurd rfl hmodne
    | cons m0 ms =>
      rw [List.foldl_cons]
      exact foldl_insert_ne_nil (fun m => moduleUrlOf "/" m.1)
        (fun m => calculateIntegrity sha384 m.2) ms _ (insertStr_ne_nil _ _ _)
  have hpass : ∀ e ∈ im.integrity,
      stepNext sha384 files distDir initNV e = ⟨1, 1, 0, 0, [], false⟩ := by
    intro e he
    obtain ⟨k, v⟩ := e
    rw [hint] at he
    rcases mem_foldl_insert (fun m => moduleUrlOf "/" m.1)
        (fun m => calculateIntegrity sha384 m.2) modules [] k v he with h0 | ⟨mo, hmo, hk, hv⟩
    · simp at h0
    · have hg := hgood mo hmo
      have hurl : k = "/" ++ mo.1 := by rw [hk, moduleUrl_slash mo.1 hg]
      have hfp : urlToFilePath k = mo.1 := by rw [hurl, urlToFilePath_slash]
      refine stepNext_pass sha384 files distDir k v mo.2 ?_ ?_ ?_
      · rw [hv]
        exact strStarts_append "sha384-" (sha384 mo.2)
      · rw [hfp]
        exact hfiles mo hmo
      · exact hv.symm
  have hrun := runNext_all_pass sha384 files distDir im.integrity hpass
  refine ⟨{ runNext sha384 files distDir im.integrity with
      success := (runNext sha384 files distDir im.integrity).failures.isEmpty }, ?_, ?_, ?_⟩
  · unfold validateNextJSBuildIntegrity
    rw [if_neg (by simp [List.isEmpty_iff, hIGne])]
  · exact hrun.1
  · exact hrun.2

/-- C7 witness: a one-module directory, its generated map, and the validator
reporting no failures and no missing files. -/
theorem c7_generate_validate_roundtrip_witness :
    ∃ R : NVResults,
      validateNextJSBuildIntegrity (fun s => s)
        (fun p => if p == "dist/lib/app.js" then some "BODY" else none) "dist"
        ({ imports := [("app", "/lib/app.js")], scopes := [],
           integrity := [("/lib/app.js", "sha384-BODY")] } : ImportMap).integrity =
        Except.ok R ∧
      R.failed = 0 ∧ R.missing = 0 :=
  c7_generate_validate_roundtrip (fun s => s)
    (fun p => if p == "dist/lib/app.js" then some "BODY" else none) "dist"
    [("lib/app.js", "BODY")]
    { imports := [("app", "/lib/app.js")], scopes := [],
      integrity := [("/lib/app.js", "sha384-BODY")] }
    (by decide) (by decide) rfl

/-- C8: generator determinism. The integrity table produced for a single
module is exactly the url paired with the digest string built from the hash
of the content, so the digest is a function of the specifier and content
alone and two runs on identical input produce identical strings. -/
theorem c8_deterministic_digest (sha384 : String → String) (s c : String) (im : ImportMap)
    (hgen : generateImportMapWithIntegrity sha384 [(s, c)] "/" = Except.ok im) :
    im.integrity = [(moduleUrlOf "/" s, "sha384-" ++ sha384 c)] ∧
    lookupStr im.integrity (moduleUrlOf "/" s) = some ("sha384-" ++ sha384 c) := by
  simp only [generateImportMapWithIntegrity, List.isEmpty_cons, Bool.false_eq_true, if_false,
    Except.ok.injEq] at hgen
  have hint : im.integrity = [(moduleUrlOf "/" s, "sha384-" ++ sha384 c)] := by
    rw [← hgen]
    rfl
  refine ⟨hint, ?_⟩
  rw [hint]
  simp [lookupStr]

/-- C8 witness: the theorem applied at a concrete module, giving the concrete
digest entry. -/
theorem c8_deterministic_digest_witness :
    ({ imports := [("app", "/lib/app.js")], scopes := [],
       integrity := [("/lib/app.js", "sha384-BODY")] } : ImportMap).integrity =
      [("/lib/app.js", "sha384-BODY")] ∧
    lookupStr [("/lib/app.js", "sha384-BODY")] "/lib/app.js" = some "sha384-BODY" := by
  have h := c8_deterministic_digest (fun s => s) "lib/app.js" "BODY"
    { imports := [("app", "/lib/app.js")], scopes := [],
      integrity := [("/lib/app.js", "sha384-BODY")] } rfl
  exact ⟨h.1, h.2⟩

/-- C9 counterexample: the claim says the generator errors on empty input and
returns one imports entry and one integrity entry per module otherwise. Two
modules whose basenames collide produce a single imports entry in the
build-time generator, and the client-side generator returns an empty map for
empty input instead of failing, so the claim is false on both counts. -/
theorem c9_counterexample :
    generateImportMapWithIntegrity (fun s => s) [("a/foo.js", "c1"), ("b/foo.js", "c2")] "/" =
      Except.ok { imports := [("foo", "/b/foo.js")], scopes := [],
                  integrity := [("/a/foo.js", "sha384-c1"), ("/b/foo.js", "sha384-c2")] } ∧
    generateImportMapFetch (fun s => s) (fun _ => none) [] =
      Except.ok { imports := [], scopes := [], integrity := [] } :=
  ⟨rfl, rfl⟩

/-- C9 amended: the build-time generator rejects empty input with the
ModuleIntegrity error while the client-side generator returns an empty map;
for non-empty input the build-time generator emits one imports entry per
distinct derived specifier and one integrity entry per distinct derived url,
hence exactly one of each per module when those keys are pairwise distinct. -/
theorem c9_generator_shape :
    (∀ (sha384 : String → String) (baseUrl : String),
        generateImportMapWithIntegrity sha384 [] baseUrl =
          Except.error "[ModuleIntegrity] No modules provided for integrity calculation") ∧
    (∀ (sha384 : String → String) (fetch : String → Option String),
        generateImportMapFetch sha384 fetch [] =
          Except.ok { imports := [], scopes := [], integrity := [] }) ∧
    (∀ (sha384 : String → String) (baseUrl : String)
        (modules : List (String × String)) (im : ImportMap),
        generateImportMapWithIntegrity sha384 modules baseUrl = Except.ok im →
        (modules.map (fun m => basenameNoExt m.1)).Nodup →
        (modules.map (fun m => moduleUrlOf baseUrl m.1)).Nodup →
        im.imports.length = modules.length ∧ im.integrity.length = modules.length) := by
  refine ⟨fun _ _ => rfl, fun _ _ => rfl, ?_⟩
  intro sha baseUrl modules im hgen hnd1 hnd2
  have hne : modules.isEmpty = false := by
    by_contra hcon
    rw [Bool.not_eq_false] at hcon
    simp [generateImportMapWithIntegrity, hcon] at hgen
  simp only [generateImportMapWithIntegrity, hne, Bool.false_eq_true, if_false,
    Except.ok.injEq] at hgen
  constructor
  · have hi : im.imports = modules.foldl
        (fun l m => insertStr l (basenameNoExt m.1) (moduleUrlOf baseUrl m.1)) [] := by
      rw [← hgen]
    rw [hi, foldl_insert_of_nodup (fun m => basenameNoExt m.1)
      (fun m => moduleUrlOf baseUrl m.1) modules [] (by simp) hnd1]
    simp
  · have hi : im.integrity = modules.foldl
        (fun l m => insertStr l (moduleUrlOf baseUrl m.1) (calculateIntegrity sha m.2)) [] := by
      rw [← hgen]
    rw [hi, foldl_insert_of_nodup (fun m => moduleUrlOf baseUrl m.1)
      (fun m => calculateIntegrity sha m.2) modules [] (by simp) hnd2]
    simp

/-- C9 witness: two modules with distinct basenames and urls give exactly
two imports entries and two integrity entries. -/
theorem c9_generator_shape_witness :
    ∃ im : ImportMap,
      generateImportMapWithIntegrity (fun s => s)
        [("lib/app.js", "BODY"), ("x/util.mjs", "U")] "/" = Except.ok im ∧
      im.imports.length = 2 ∧ im.integrity.length = 2 :=
  ⟨_, rfl,
    c9_generator_shape.2.2 (fun s => s) "/" [("lib/app.js", "BODY"), ("x/util.mjs", "U")] _
      rfl (by decide) (by decide)⟩

/-- C10: the counter invariant of validateNextJSBuildIntegrity. Whenever the
validator returns a result, total is the sum of passed, failed and missing,
the failures list holds exactly one record per failed or missing entry, and
the success flag is set exactly when there was no failure at all. -/
theorem c10_counter_invariant (sha384 : String → String) (files : String → Option String)
    (distDir : String) (integrity : List (String × String)) (R : NVResults)
    (hval : validateNextJSBuildIntegrity sha384 files distDir integrity = Except.ok R) :
    R.total = R.passed + R.failed + R.missing ∧
    R.failures.length = R.failed + R.missing ∧
    (R.success = true ↔ (R.failed = 0 ∧ R.missing = 0)) ∧
    (R.success = true ↔ R.failures = []) := by
  unfold validateNextJSBuildIntegrity at hval
  by_cases hie : integrity.isEmpty
  · simp [hie] at hval
  · simp only [hie, Bool.false_eq_true, if_false, Except.ok.injEq] at hval
    subst hval
    obtain ⟨h1, h2⟩ := nvInv_run sha384 files distDir integrity
    dsimp only
    refine ⟨h1, h2, ?_, ?_⟩
    · rw [List.isEmpty_iff]
      constructor
      · intro he
        rw [he] at h2
        simp only [List.length_nil] at h2
        constructor <;> omega
      · rintro ⟨hf, hm⟩
        rw [hf, hm] at h2
        simpa [List.length_eq_zero] using h2
    · exact List.isEmpty_iff

/-- C10 witness: the invariant read off a concrete run with one missing
entry. -/
theorem c10_counter_invariant_witness :
    ∃ R : NVResults,
      validateNextJSBuildIntegrity (fun s => s) (fun _ => none) "."
        [("u", "sha384-X")] = Except.ok R ∧
      R.total = R.passed + R.failed + R.missing ∧
      R.failures.length = R.failed + R.missing ∧
      (R.success = true ↔ (R.failed = 0 ∧ R.missing = 0)) ∧
      (R.success = true ↔ R.failures = []) :=
  ⟨_, rfl, c10_counter_invariant (fun s => s) (fun _ => none) "." [("u", "sha384-X")] _ rfl⟩

end SriImportMap
